import Mathlib

/-!
Verification of the flexdev repository: a shallow embedding of the
directory-diff library (`lib/flexdev/flexdev.go`), the server-side build
lifecycle and HTTP handlers (`server/build.go`, `server/http.go`) and the
client-side upload worker pool (`flexdev.go`, `doDeploy`), together with
theorems settling the specification claims about them.

Conventions:
* Go strings are Lean `String`; Go byte-wise string comparison (`<`, `>`)
  is modelled by `flexdev.strLt`, a lexicographic comparison of the
  character sequences (identical to Go's byte order on ASCII paths, and
  order-equivalent in general since UTF-8 byte order agrees with code
  point order).
* Go slices passed by value share their backing array with the caller, so
  `sort.Sort` inside `Diff` is visible to the caller; `flexdev.diffPost`
  models the contents of the two argument arrays after `Diff` returns.
* External effects (running the compiler, spawning the subprocess,
  filesystem walks, `RemoveAll`, reading request bodies) are parameters of
  the embedded functions: each such parameter carries the outcome the
  external call produced, and the embedding reproduces exactly how the Go
  code branches on that outcome.
* Fields of Go structs keep their source names where Lean allows it.
-/

namespace flexdev

/-- Lexicographic comparison of character sequences, modelling Go's
byte-wise string `<` on path strings. -/
def strLtAux : List Char → List Char → Bool
  | [], [] => false
  | [], _ :: _ => true
  | _ :: _, [] => false
  | a :: as, b :: bs =>
    if a.toNat < b.toNat then true
    else if b.toNat < a.toNat then false
    else strLtAux as bs

/-- Go's `a < b` on strings. -/
def strLt (a b : String) : Bool := strLtAux a.data b.data

/-- Go's `strings.HasPrefix s pre`. -/
def hasPrefixStr (s pre : String) : Bool := pre.data.isPrefixOf s.data

/-- DirEntry from lib/flexdev/flexdev.go: one entry of a directory
snapshot. `SHA1` is the hex content hash, empty for directories. -/
structure DirEntry where
  Path : String
  IsDir : Bool
  SHA1 : String
deriving DecidableEq, Repr

/-- DirList from lib/flexdev/flexdev.go. -/
abbrev DirList := List DirEntry

/-- InDir from lib/flexdev/flexdev.go:
`dir.IsDir && strings.HasPrefix(e.Path+"/", dir.Path)`. -/
def DirEntry.InDir (e dir : DirEntry) : Bool :=
  dir.IsDir && hasPrefixStr (e.Path ++ "/") dir.Path

/-- the `appendEntry` closure inside `DirList.Diff`: append `e` to `l`
unless the last-appended entry is a directory `e` is `InDir` of. -/
def appendEntry (l : DirList) (e : DirEntry) : DirList :=
  match l.getLast? with
  | none => l ++ [e]
  | some last => if e.InDir last then l else l ++ [e]

/-- the two drain loops after the main merge loop of `Diff`: push every
entry of the first list through `appendEntry` onto the accumulator. -/
def drain : DirList → DirList → DirList
  | [], acc => acc
  | e :: rest, acc => drain rest (appendEntry acc e)

/-- the main merge loop of `DirList.Diff` (flexdev.go lines 122-163),
including the two drain loops that follow it. `ours`/`want` are the two
cursors, `addAcc`/`removeAcc` the `add`/`remove` lists built so far. -/
def diffLoop : DirList → DirList → DirList → DirList → DirList × DirList
  | [], want, addAcc, removeAcc => (drain want addAcc, removeAcc)
  | o :: os, [], addAcc, removeAcc => (addAcc, drain (o :: os) removeAcc)
  | o :: os, w :: ws, addAcc, removeAcc =>
    if o.Path = w.Path then
      if o.IsDir ≠ w.IsDir then
        -- Mismatch in file type.
        diffLoop os ws (appendEntry addAcc w) (appendEntry removeAcc o)
      else if o.SHA1 = w.SHA1 then
        -- Nothing to change (includes both being dirs: they have no SHA).
        diffLoop os ws addAcc removeAcc
      else
        -- Replace file.
        diffLoop os ws (appendEntry addAcc w) removeAcc
    else if strLt w.Path o.Path then
      -- ours[0].Path > want[0].Path: want entry is missing locally.
      diffLoop (o :: os) ws (appendEntry addAcc w) removeAcc
    else
      -- ours[0].Path < want[0].Path: ours entry is stale.
      diffLoop os (w :: ws) addAcc (appendEntry removeAcc o)
termination_by ours want _ _ => ours.length + want.length

/-- the effect of `sort.Sort` on a DirList (Less compares `Path`): the
array contents afterwards are the entries in nondecreasing path order. -/
def sortDir (l : DirList) : DirList := l.mergeSort (fun a b => ! strLt b.Path a.Path)

/-- Diff from lib/flexdev/flexdev.go: sort both lists, then run the
linear merge. Returns `(add, remove)`. -/
def DirList.Diff (ours want : DirList) : DirList × DirList :=
  diffLoop (sortDir ours) (sortDir want) [] []

/-- CreateBuildRequest from lib/flexdev/flexdev.go; `Config` holds the
raw config bytes. -/
structure CreateBuildRequest where
  Config : String
  Files : DirList
deriving DecidableEq

/-- StateCreated from lib/flexdev/flexdev.go. -/
def StateCreated : String := "created"

/-- StateFetching from lib/flexdev/flexdev.go. -/
def StateFetching : String := "fetching"

/-- StateBuilding from lib/flexdev/flexdev.go. -/
def StateBuilding : String := "building"

/-- StateBuilt from lib/flexdev/flexdev.go. -/
def StateBuilt : String := "built"

/-- StateRunning from lib/flexdev/flexdev.go. -/
def StateRunning : String := "running"

/-- StateStopped from lib/flexdev/flexdev.go. -/
def StateStopped : String := "stopped"

end flexdev

namespace server

/-- config from server/build.go: the parsed yaml app config. The Go map
for env_variables is modelled as an association list. -/
structure Config where
  Runtime : String
  VM : String
  Env : List (String × String)
deriving DecidableEq, Repr

/-- Build from server/build.go. `cmdProcess` models `cmd.Process`
(`none` when no process was recorded on the command handle); `output`
models the accumulated `bytes.Buffer` contents; `addr` the assigned
listen address. -/
structure Build where
  ID : String
  State : String
  clientFiles : flexdev.DirList
  dir : String
  cmdProcess : Option Unit
  output : String
  addr : String
  config : Config
deriving DecidableEq, Repr

/-- GoBuild from server/build.go. The external `go build` run is a
parameter: `compileErr` is `cmd.Run()`'s error, `compileOut` the
combined stdout/stderr it appended to `b.output`. The Go code sets
`State = StateBuilding` before running the compiler and only sets
`StateBuilt` after a successful run (on failure it returns early with
the state still `StateBuilding`). -/
def Build.GoBuild (b : Build) (compileErr : Option String) (compileOut : String) :
    Build × Option String :=
  let b1 : Build := { b with State := flexdev.StateBuilding, output := b.output ++ compileOut }
  match compileErr with
  | some e => (b1, some e)
  | none => ({ b1 with State := flexdev.StateBuilt }, none)

/-- the outcomes of the external calls made by `Build.Start`:
`net.Listen`, `SplitHostPort`, and `cmd.Start()`. -/
structure StartEnv where
  listenErr : Option String
  addr : String
  splitErr : Option String
  startErr : Option String
deriving DecidableEq, Repr

/-- Start from server/build.go: bind an ephemeral port, record `addr`,
spawn the artifact; `State` becomes `StateRunning` only after
`cmd.Start()` succeeds, and `cmd.Process` is recorded exactly then. -/
def Build.Start (b : Build) (env : StartEnv) : Build × Option String :=
  match env.listenErr with
  | some e => (b, some e)
  | none =>
    let b1 : Build := { b with addr := env.addr }
    match env.splitErr with
    | some e => (b1, some e)
    | none =>
      match env.startErr with
      | some e => (b1, some e)
      | none => ({ b1 with State := flexdev.StateRunning, cmdProcess := some () }, none)

/-- Stop from server/build.go, lines 95-108. `killErr` is the outcome of
`b.cmd.Process.Kill()` when it is reached. Not running: error, state
unchanged. Running with no recorded process: state set to `StateStopped`
and an error returned. Running with a process: on kill failure the error
is returned with the state unchanged, otherwise `StateStopped`. -/
def Build.Stop (b : Build) (killErr : Option String) : Build × Option String :=
  if b.State ≠ flexdev.StateRunning then
    (b, some "Tried to stop binary when not running")
  else
    match b.cmdProcess with
    | none => ({ b with State := flexdev.StateStopped },
               some "Tried to stop binary when process not running")
    | some _ =>
      match killErr with
      | some e => (b, some e)
      | none => ({ b with State := flexdev.StateStopped }, none)

/-- filesNeeded from server/build.go: list the build dir (`oursOnDisk`
is the outcome of that filesystem walk), diff it against the
client-declared files, and return the `add` and `remove` path lists. -/
def Build.filesNeeded (b : Build) (oursOnDisk : Except String flexdev.DirList) :
    Except String (List String × List String) :=
  match oursOnDisk with
  | .error e => .error e
  | .ok ours =>
    let d := flexdev.DirList.Diff ours b.clientFiles
    .ok (d.1.map flexdev.DirEntry.Path, d.2.map flexdev.DirEntry.Path)

/-- Response from server/http.go (the fields the handlers populate; the
`Build` pointer field is tracked separately as the live slot in the
handler outcomes). `code` 0 means no explicit status was set. -/
structure Response where
  code : Nat
  error : Option String
  message : String
  needFiles : List String
deriving DecidableEq, Repr

/-- result of one call to proxyHandler: either the request is forwarded
to the running build's address, or a plain-text diagnostic is written
with HTTP status 503. -/
inductive ProxyResult where
  | forward (addr : String)
  | unavailable (code : Nat) (body : String)
deriving DecidableEq, Repr

/-- proxyHandler from server/http.go, lines 57-82: with no live record,
503 and a fixed hint; with a live record in any state other than
`StateRunning`, 503 with the state and the accumulated log; otherwise
reverse-proxy to the build's address. -/
def proxyHandler (build? : Option Build) : ProxyResult :=
  match build? with
  | none =>
    .unavailable 503 "No app to run. Use `flexdev deploy` to deploy the application code."
  | some b =>
    if b.State ≠ flexdev.StateRunning then
      .unavailable 503 ("state: " ++ b.State ++ "\n" ++ b.output)
    else
      .forward b.addr

/-- result of one admin handler call: either a JSON response was written,
or the handler dereferenced the nil live-build pointer and panicked (the
request dies without a structured response). -/
inductive HandlerOutcome where
  | response (r : Response)
  | nilDeref
deriving DecidableEq, Repr

/-- rendering of `fmt.Fprintln(buf, build.config)` in statusHandler,
abstracting Go's %v formatting of the pointed-to struct. -/
def configRender (c : Config) : String :=
  c.Runtime ++ " " ++ c.VM ++ " " ++ String.intercalate " " (c.Env.map (fun p => p.1 ++ ":" ++ p.2))

/-- statusHandler from server/http.go, lines 276-293: reports
`build=nil` when no live record exists, otherwise the ID, state,
address, config and log. Never dereferences nil. -/
def statusHandler (build? : Option Build) : HandlerOutcome :=
  match build? with
  | none => .response ⟨0, none, "build=nil\n", []⟩
  | some b =>
    .response ⟨0, none,
      b.ID ++ "\n" ++ b.State ++ "\n" ++ b.addr ++ "\n" ++ configRender b.config ++ "\n"
        ++ b.output ++ "\n", []⟩

/-- the request data and external-call outcomes seen by putFileHandler:
the three form values, the result of reading the body, the hex SHA-1 the
server computes over the received bytes, and the mkdir/write outcomes. -/
structure PutEnv where
  id : String
  filename : String
  sha1Form : String
  bodyErr : Option String
  bodySHA1 : String
  mkdirErr : Option String
  writeErr : Option String
deriving DecidableEq, Repr

/-- putFileHandler from server/http.go, lines 210-256. The empty-id
check precedes the `buildID != build.ID` comparison, which dereferences
the live record: with no live record and a nonempty id the handler
panics on nil. -/
def putFileHandler (build? : Option Build) (env : PutEnv) : HandlerOutcome :=
  if env.id = "" then
    .response ⟨400, some "Missing build ID.", "", []⟩
  else
    match build? with
    | none => .nilDeref
    | some b =>
      if env.id ≠ b.ID then
        .response ⟨400, some "Build ID does not match.", "", []⟩
      else if env.filename = "" then
        .response ⟨400, some "Missing destination filename.", "", []⟩
      else if env.sha1Form = "" then
        .response ⟨400, some "Missing hash.", "", []⟩
      else
        match env.bodyErr with
        | some e => .response ⟨0, some e, "", []⟩
        | none =>
          if env.bodySHA1 ≠ env.sha1Form then
            .response ⟨400, some "sum did not match", "", []⟩
          else
            match env.mkdirErr with
            | some e => .response ⟨0, some ("Could not mkdir -p " ++ env.filename ++ ": " ++ e), "", []⟩
            | none =>
              match env.writeErr with
              | some e => .response ⟨0, some ("Could not write file to " ++ env.filename ++ ": " ++ e), "", []⟩
              | none => .response ⟨0, none, "Wrote " ++ env.filename, []⟩

/-- startBuildHandler from server/http.go, lines 258-274: runs
`build.GoBuild()` then `build.Start()` under the write lock. With no
live record, `build.GoBuild()` writes a field of the nil pointer and
panics. Returns the outcome and the live record afterwards. -/
def startBuildHandler (build? : Option Build) (compileErr : Option String)
    (compileOut : String) (startEnv : StartEnv) : HandlerOutcome × Option Build :=
  match build? with
  | none => (.nilDeref, none)
  | some b =>
    let r1 := b.GoBuild compileErr compileOut
    match r1.2 with
    | some e =>
      (.response ⟨0, some ("Build failed: " ++ e), r1.1.output, []⟩, some r1.1)
    | none =>
      let r2 := r1.1.Start startEnv
      match r2.2 with
      | some e => (.response ⟨0, some ("Could not run binary: " ++ e), "", []⟩, some r2.1)
      | none => (.response ⟨0, none, "App is running.", []⟩, some r2.1)

/-- packageDir from server/http.go: `filepath.Join(os.TempDir(), "flexdev-server")`. -/
def packageDir : String := "/tmp/flexdev-server"

/-- outcome of `json.NewDecoder(r.Body).Decode(&buildReq)` in
createBuildHandler: a non-EOF error aborts the handler; `io.EOF` leaves
the request at its zero value and the handler continues. -/
inductive DecodeResult where
  | fail (e : String)
  | eof
  | ok (req : flexdev.CreateBuildRequest)
deriving DecidableEq

/-- the external-call outcomes seen by createBuildHandler: the kill
outcome if a running build must be stopped, the body decode result, the
yaml parse outcome together with the (possibly partially filled) config
struct it leaves behind, the MkdirAll outcome, the fresh build id, the
walk of the package dir, and the per-path RemoveAll outcomes. -/
structure CreateEnv where
  killErr : Option String
  decode : DecodeResult
  yamlErr : Option String
  yamlCfg : Config
  mkdirErr : Option String
  newID : String
  listDisk : Except String flexdev.DirList
  rmFail : String → Option String

/-- the observable result of one createBuildHandler call: the sequence
of responses written to the client (the missing `return` after a yaml
parse failure makes two responses possible), the live record afterwards,
and the paths actually deleted from disk. -/
structure CreateOutcome where
  responses : List Response
  build : Option Build
  removedPaths : List String

/-- the remove loop of createBuildHandler: delete each path in order,
stopping at the first `RemoveAll` failure. Returns the deleted paths and
the first error. -/
def removeAll (rmFail : String → Option String) : List String → List String × Option String
  | [] => ([], none)
  | p :: ps =>
    match rmFail p with
    | some e => ([], some e)
    | none =>
      let r := removeAll rmFail ps
      (p :: r.1, r.2)

/-- createBuildHandler from server/http.go, lines 133-208: stop a
running previous build (aborting on a stop error), decode the request,
reject an empty config or file list, parse the yaml (writing a 400
response on failure but falling through), ensure the package dir,
allocate the new record, compute the diff against the on-disk tree,
delete the stale paths, and answer with the needed files. -/
def createBuildHandler (prev : Option Build) (env : CreateEnv) : CreateOutcome :=
  let stopStep : Option Build × Option String :=
    match prev with
    | some b =>
      if b.State = flexdev.StateRunning then
        let r := b.Stop env.killErr
        (some r.1, r.2)
      else (some b, none)
    | none => (none, none)
  match stopStep.2 with
  | some e =>
    ⟨[⟨0, some ("Could not stop existing binary: " ++ e), "", []⟩], stopStep.1, []⟩
  | none =>
    let cur := stopStep.1
    match env.decode with
    | .fail e => ⟨[⟨0, some ("Could not read build req: " ++ e), "", []⟩], cur, []⟩
    | other =>
      let req : flexdev.CreateBuildRequest :=
        match other with
        | .ok r => r
        | _ => ⟨"", []⟩
      if req.Config = "" then
        ⟨[⟨400, some "Missing config file.", "", []⟩], cur, []⟩
      else if req.Files = [] then
        ⟨[⟨400, some "Missing dir list.", "", []⟩], cur, []⟩
      else
        -- yaml.Unmarshal failure writes a 400 response but does not return.
        let yamlResp : List Response :=
          match env.yamlErr with
          | some e => [⟨400, some ("Could not parse yaml config: " ++ e), "", []⟩]
          | none => []
        match env.mkdirErr with
        | some e => ⟨yamlResp ++ [⟨0, some e, "", []⟩], cur, []⟩
        | none =>
          let nb : Build :=
            { ID := env.newID, State := flexdev.StateCreated, clientFiles := req.Files,
              dir := packageDir, cmdProcess := none, output := "", addr := "",
              config := env.yamlCfg }
          match nb.filesNeeded env.listDisk with
          | .error e =>
            ⟨yamlResp ++ [⟨0, some ("Could not get needed files: " ++ e), "", []⟩], some nb, []⟩
          | .ok needRemove =>
            let rm := removeAll env.rmFail needRemove.2
            match rm.2 with
            | some e => ⟨yamlResp ++ [⟨0, some e, "", []⟩], some nb, rm.1⟩
            | none =>
              ⟨yamlResp ++ [⟨0, none, "Build created.", needRemove.1⟩], some nb, rm.1⟩

end server

namespace client

/-- shared state of the upload worker pool in `doDeploy` (flexdev.go,
lines 171-199): the mutex-protected `sendErr`, each worker's local
`skip` flag (the value it read at its most recent check), the files
transferred so far, and the number of `wg.Done()` calls. -/
structure PoolState where
  sendErr : Option String
  skip : List Bool
  transferred : List String
  doneCount : Nat
deriving DecidableEq, Repr

/-- atomic events of the pool, one interleaving step each: `check w` is
worker `w` reading `sendErr` into its local `skip` variable under the
mutex; `deliver w item fail` is worker `w` receiving `item` from the
channel and, unless its flag says skip, running `putFile` with outcome
`fail`, recording any failure, then calling `wg.Done()`. -/
inductive Ev where
  | check (wid : Nat)
  | deliver (wid : Nat) (item : String) (fail : Option String)
deriving DecidableEq, Repr

/-- worker `w`'s local `skip` flag in state `s`. -/
def skipOf (s : PoolState) (w : Nat) : Bool := s.skip.getD w false

/-- one step of the pool. A worker whose flag was set skips the received
item (`wg.Done()` only); otherwise a failed transfer overwrites
`sendErr` unconditionally (`sendErr = fmt.Errorf(...)`), and a
successful one records the transfer. -/
def step (s : PoolState) (e : Ev) : PoolState :=
  match e with
  | .check w => { s with skip := s.skip.set w s.sendErr.isSome }
  | .deliver w item fail =>
    if skipOf s w then
      { s with doneCount := s.doneCount + 1 }
    else
      match fail with
      | some e => { s with sendErr := some e, doneCount := s.doneCount + 1 }
      | none => { s with transferred := s.transferred ++ [item], doneCount := s.doneCount + 1 }

/-- run the pool over a whole interleaving. -/
def runPool (s : PoolState) (tr : List Ev) : PoolState := tr.foldl step s

/-- initial pool state for `n` workers: no error, no flag set, nothing
transferred. -/
def initPool (n : Nat) : PoolState := ⟨none, List.replicate n false, [], 0⟩

/-- number of deliver events in a trace, i.e. items the producer pushed
and some worker received. -/
def countDeliver : List Ev → Nat
  | [] => 0
  | .deliver _ _ _ :: tr => countDeliver tr + 1
  | .check _ :: tr => countDeliver tr

/-- a valid interleaving of three workers: all three check before any
error exists; worker 1 fails on f1, worker 2 then fails on f2
(overwriting the first error), and worker 0 still transfers f3 even
though both failures were recorded before f3 was dequeued. -/
def cexTrace : List Ev :=
  [.check 0, .check 1, .check 2,
   .deliver 1 "f1" (some "e1"),
   .deliver 2 "f2" (some "e2"),
   .deliver 0 "f3" none]

end client

/-- property the C2 claim asserts, defined from the spec's words: the
candidate lies strictly beneath the directory in the path tree, i.e. the
directory's path followed by a separator is a prefix of the candidate's
path. -/
def strictlyBeneath (e dir : flexdev.DirEntry) : Bool :=
  dir.IsDir && (dir.Path ++ "/").data.isPrefixOf e.Path.data

/-- a sample config value. -/
def cfg0 : server.Config := ⟨"go", "true", [("FOO", "bar")]⟩

/-- a freshly created build record. -/
def bCreated : server.Build :=
  ⟨"1001", flexdev.StateCreated, [⟨"main.go", false, "s1"⟩], server.packageDir, none, "", "", cfg0⟩

/-- a record in the Running state whose command handle has no recorded
process: the degraded condition of `Stop`. -/
def bRunNoProc : server.Build :=
  ⟨"1002", flexdev.StateRunning, [], server.packageDir, none, "log\n", "", cfg0⟩

/-- a healthy running record. -/
def bRunning : server.Build :=
  ⟨"1003", flexdev.StateRunning, [], server.packageDir, some (), "started\n", "[::]:8081", cfg0⟩

/-- a concrete createBuildHandler environment in which the yaml config
fails to parse but everything else succeeds. -/
def c10Env : server.CreateEnv :=
  { killErr := none
    decode := .ok ⟨"runtime go\n", [⟨"app.yaml", false, "s1"⟩]⟩
    yamlErr := some "bad indent"
    yamlCfg := ⟨"go", "", []⟩
    mkdirErr := none
    newID := "1462603439818096410"
    listDisk := .ok [⟨"old.txt", false, "s2"⟩]
    rmFail := fun _ => none }

-- Sanity checks: the five unit tests of lib/flexdev/flexdev_test.go.
example :
    flexdev.DirList.Diff [⟨"a", false, ""⟩] [⟨"b", false, ""⟩]
      = ([⟨"b", false, ""⟩], [⟨"a", false, ""⟩]) := by
  simp [flexdev.DirList.Diff, flexdev.sortDir, flexdev.diffLoop, flexdev.drain,
    flexdev.appendEntry, flexdev.strLt, flexdev.strLtAux, flexdev.DirEntry.InDir,
    flexdev.hasPrefixStr, List.mergeSort]

example :
    flexdev.DirList.Diff []
      [⟨"a", false, ""⟩, ⟨"c", false, ""⟩, ⟨"b", true, ""⟩, ⟨"b/a", false, ""⟩]
      = ([⟨"a", false, ""⟩, ⟨"b", true, ""⟩, ⟨"c", false, ""⟩], []) := by
  simp [flexdev.DirList.Diff, flexdev.sortDir, flexdev.diffLoop, flexdev.drain,
    flexdev.appendEntry, flexdev.strLt, flexdev.strLtAux, flexdev.DirEntry.InDir,
    flexdev.hasPrefixStr, List.mergeSort]

example :
    flexdev.DirList.Diff [⟨"a", false, ""⟩] [⟨"a", true, ""⟩, ⟨"a/b", false, ""⟩]
      = ([⟨"a", true, ""⟩], [⟨"a", false, ""⟩]) := by
  simp [flexdev.DirList.Diff, flexdev.sortDir, flexdev.diffLoop, flexdev.drain,
    flexdev.appendEntry, flexdev.strLt, flexdev.strLtAux, flexdev.DirEntry.InDir,
    flexdev.hasPrefixStr, List.mergeSort]

example :
    flexdev.DirList.Diff [⟨"a", false, "a"⟩] [⟨"a", false, "b"⟩]
      = ([⟨"a", false, "b"⟩], []) := by
  simp [flexdev.DirList.Diff, flexdev.sortDir, flexdev.diffLoop, flexdev.drain,
    flexdev.appendEntry, flexdev.strLt, flexdev.strLtAux, flexdev.DirEntry.InDir,
    flexdev.hasPrefixStr, List.mergeSort]

example :
    flexdev.DirList.Diff [⟨"a", true, ""⟩, ⟨"a/a", false, ""⟩, ⟨"a/b", false, ""⟩] []
      = ([], [⟨"a", true, ""⟩]) := by
  simp [flexdev.DirList.Diff, flexdev.sortDir, flexdev.diffLoop, flexdev.drain,
    flexdev.appendEntry, flexdev.strLt, flexdev.strLtAux, flexdev.DirEntry.InDir,
    flexdev.hasPrefixStr, List.mergeSort]

/-- unfolding lemma for the merge loop when both cursors are nonempty. -/
theorem diffLoop_cons_cons (o w : flexdev.DirEntry) (os ws addAcc removeAcc : flexdev.DirList) :
    flexdev.diffLoop (o :: os) (w :: ws) addAcc removeAcc =
      if o.Path = w.Path then
        if o.IsDir ≠ w.IsDir then
          flexdev.diffLoop os ws (flexdev.appendEntry addAcc w) (flexdev.appendEntry removeAcc o)
        else if o.SHA1 = w.SHA1 then
          flexdev.diffLoop os ws addAcc removeAcc
        else
          flexdev.diffLoop os ws (flexdev.appendEntry addAcc w) removeAcc
      else if flexdev.strLt w.Path o.Path then
        flexdev.diffLoop (o :: os) ws (flexdev.appendEntry addAcc w) removeAcc
      else
        flexdev.diffLoop os (w :: ws) addAcc (flexdev.appendEntry removeAcc o) := by
  rw [flexdev.diffLoop]

/-- the merge loop maps two identical cursors to the unchanged
accumulators: every head pair takes the equal-path, equal-type,
equal-hash branch. -/
theorem diffLoop_refl (l addAcc removeAcc : flexdev.DirList) :
    flexdev.diffLoop l l addAcc removeAcc = (addAcc, removeAcc) := by
  induction l with
  | nil => simp [flexdev.diffLoop, flexdev.drain]
  | cons e t ih => rw [diffLoop_cons_cons]; simp [ih]

/-- C3: for every snapshot `A`, `diff(A, A)` yields an empty add list
and an empty remove list. -/
theorem diff_self_empty (A : flexdev.DirList) : flexdev.DirList.Diff A A = ([], []) := by
  unfold flexdev.DirList.Diff
  exact diffLoop_refl _ _ _

/-- C1: at an equal-path head pair of the two cursors, the merge loop
removes the `have` entry and adds the `want` entry when the directory
flags differ; adds only the `want` entry when both are files with
different hashes; emits nothing when both are directories or both are
files with equal hashes; and advances both cursors in every case. The
hypotheses `ho`/`hw` are the snapshot invariant that directories carry
no content hash. -/
theorem diff_equal_paths_step (os ws addAcc removeAcc : flexdev.DirList)
    (o w : flexdev.DirEntry) (hpath : o.Path = w.Path)
    (ho : o.IsDir = true → o.SHA1 = "") (hw : w.IsDir = true → w.SHA1 = "") :
    (o.IsDir ≠ w.IsDir →
      flexdev.diffLoop (o :: os) (w :: ws) addAcc removeAcc =
        flexdev.diffLoop os ws (flexdev.appendEntry addAcc w)
          (flexdev.appendEntry removeAcc o)) ∧
    (o.IsDir = false → w.IsDir = false → o.SHA1 ≠ w.SHA1 →
      flexdev.diffLoop (o :: os) (w :: ws) addAcc removeAcc =
        flexdev.diffLoop os ws (flexdev.appendEntry addAcc w) removeAcc) ∧
    ((o.IsDir = true ∧ w.IsDir = true) ∨
        (o.IsDir = false ∧ w.IsDir = false ∧ o.SHA1 = w.SHA1) →
      flexdev.diffLoop (o :: os) (w :: ws) addAcc removeAcc =
        flexdev.diffLoop os ws addAcc removeAcc) := by
  refine ⟨fun hdir => ?_, fun ho1 hw1 hsha => ?_, fun hcase => ?_⟩
  · rw [diffLoop_cons_cons, if_pos hpath, if_pos hdir]
  · rw [diffLoop_cons_cons, if_pos hpath, if_neg (by simp [ho1, hw1]), if_neg hsha]
  · rcases hcase with ⟨ho1, hw1⟩ | ⟨ho1, hw1, hsha⟩
    · rw [diffLoop_cons_cons, if_pos hpath, if_neg (by simp [ho1, hw1]),
        if_pos (by rw [ho ho1, hw hw1])]
    · rw [diffLoop_cons_cons, if_pos hpath, if_neg (by simp [ho1, hw1]), if_pos hsha]

/-- witness for `diff_equal_paths_step`: two files at the same path with
different hashes; only the `want` entry is pushed onto `add`. -/
theorem diff_equal_paths_step_witness :
    flexdev.diffLoop [⟨"a", false, "x"⟩] [⟨"a", false, "y"⟩] [] [] =
      flexdev.diffLoop [] [] (flexdev.appendEntry [] ⟨"a", false, "y"⟩) [] :=
  (diff_equal_paths_step [] [] [] [] ⟨"a", false, "x"⟩ ⟨"a", false, "y"⟩ rfl
    (by decide) (by decide)).2.1 rfl rfl (by decide)

/-- C2 counterexample: the candidate `ab` does not lie strictly beneath
the directory `a` in the path tree, yet `appendEntry` skips it, because
`InDir` tests the raw string prefix `a` against `ab/`; a whole `Diff`
run drops the entry the same way. -/
theorem appendEntry_skip_counterexample :
    flexdev.appendEntry [⟨"a", true, ""⟩] ⟨"ab", false, "h1"⟩ = [⟨"a", true, ""⟩] ∧
    strictlyBeneath ⟨"ab", false, "h1"⟩ ⟨"a", true, ""⟩ = false ∧
    flexdev.DirList.Diff [⟨"a", true, ""⟩, ⟨"ab", false, "h1"⟩] [] = ([], [⟨"a", true, ""⟩]) := by
  refine ⟨by decide, by decide, ?_⟩
  simp [flexdev.DirList.Diff, flexdev.sortDir, flexdev.diffLoop, flexdev.drain,
    flexdev.appendEntry, flexdev.strLt, flexdev.strLtAux, flexdev.DirEntry.InDir,
    flexdev.hasPrefixStr, List.mergeSort]

/-- C2 amended: a candidate is skipped if and only if the list is
nonempty and its last-appended entry is a directory whose path is a
plain string prefix of the candidate's path followed by `/` — which
covers strict descendants, an entry at the identical path, and sibling
paths that merely extend the directory's name (such as `ab` under `a`). -/
theorem appendEntry_skip_iff (l : flexdev.DirList) (e : flexdev.DirEntry) :
    flexdev.appendEntry l e = l ↔
      ∃ init last, l = init ++ [last] ∧ e.InDir last = true := by
  induction l using List.reverseRecOn with
  | nil =>
    simp only [flexdev.appendEntry, List.getLast?_nil, List.nil_append]
    constructor
    · intro h; exact absurd h (by simp)
    · rintro ⟨init, last, h, -⟩
      exact absurd h.symm (List.append_ne_nil_of_right_ne_nil init (by simp))
  | append_singleton init' a ih =>
    simp only [flexdev.appendEntry, List.getLast?_concat]
    by_cases hin : flexdev.DirEntry.InDir e a
    · simp only [hin, if_pos]
      constructor
      · intro _; exact ⟨init', a, rfl, hin⟩
      · intro _; trivial
    · rw [if_neg hin]
      constructor
      · intro h
        have := congrArg List.length h
        simp at this
      · rintro ⟨init2, last2, heq, hin2⟩
        have : a = last2 := by
          have h1 := List.getLast?_concat (a := a) init'
          rw [heq] at h1
          rw [List.getLast?_concat] at h1
          exact (Option.some_inj.mp h1.symm)
        rw [← this] at hin2
        exact absurd hin2 (by simpa using hin)

/-- C4 counterexample: when the compile step fails on a freshly created
record, the state afterwards is `StateBuilding` — the value written at
the top of `GoBuild` — and not the `StateCreated` the record held before
the call. -/
theorem goBuild_fail_counterexample :
    (bCreated.GoBuild (some "exit status 2") "main.go:3: syntax error\n").1.State
        = flexdev.StateBuilding ∧
    flexdev.StateBuilding ≠ flexdev.StateCreated := by decide

/-- C4 amended: `GoBuild` returns exactly the compiler's error; on
failure the record is left in `StateBuilding` (written on entry, so the
state does not stay `StateCreated`), and the state is `StateBuilt` if
and only if the compile succeeded. Nothing blocks a retry: `GoBuild`
never inspects the state it starts from. -/
theorem goBuild_state (b : server.Build) (ce : Option String) (co : String) :
    ((b.GoBuild ce co).2 = ce) ∧
    (ce ≠ none → (b.GoBuild ce co).1.State = flexdev.StateBuilding) ∧
    ((b.GoBuild ce co).1.State = flexdev.StateBuilt ↔ ce = none) := by
  cases ce with
  | none => simp [server.Build.GoBuild]
  | some e =>
    refine ⟨rfl, fun _ => rfl, ?_⟩
    simp only [server.Build.GoBuild]
    constructor
    · intro h
      exact absurd h (by decide)
    · intro h; cases h

/-- witness for `goBuild_state`: a concrete failing compile leaves the
record in the building state. -/
theorem goBuild_state_witness :
    (bCreated.GoBuild (some "exit status 2") "out").1.State = flexdev.StateBuilding :=
  (goBuild_state bCreated (some "exit status 2") "out").2.1 (by decide)

/-- C5: `Stop` fails with the invalid-state error and leaves the record
untouched from every state other than `StateRunning`; it can only
succeed from `StateRunning`; and in the degraded case — running but no
recorded process — it still moves the state to `StateStopped` while also
reporting an error. -/
theorem stop_state (b : server.Build) (k : Option String) :
    (b.State ≠ flexdev.StateRunning →
      b.Stop k = (b, some "Tried to stop binary when not running")) ∧
    ((b.Stop k).2 = none → b.State = flexdev.StateRunning) ∧
    (b.State = flexdev.StateRunning → b.cmdProcess = none →
      (b.Stop k).1.State = flexdev.StateStopped ∧ ((b.Stop k).2).isSome = true) := by
  refine ⟨fun h => by simp [server.Build.Stop, h], ?_, fun hr hp => ?_⟩
  · intro hnone
    by_contra h
    simp [server.Build.Stop, h] at hnone
  · simp [server.Build.Stop, hr, hp]

/-- witness for `stop_state`: stopping the degraded running record moves
it to `StateStopped` and reports an error. -/
theorem stop_state_witness :
    (bRunNoProc.Stop none).1.State = flexdev.StateStopped ∧
    ((bRunNoProc.Stop none).2).isSome = true :=
  (stop_state bRunNoProc none).2.2 rfl rfl

/-- C6 counterexample: the claim includes the no-record case among those
whose 503 carries the current state and the accumulated log, but with no
live record the proxy answers with a fixed deploy hint that carries
neither: every state-and-log diagnostic the handler produces begins with
the text `state: `, and this body does not (it mentions no state and no
log at all). -/
theorem proxy_no_record_counterexample :
    server.proxyHandler none =
      .unavailable 503 "No app to run. Use `flexdev deploy` to deploy the application code." ∧
    flexdev.hasPrefixStr
      "No app to run. Use `flexdev deploy` to deploy the application code." "state: "
      = false := by decide

/-- C6 amended: the proxy forwards an inbound request exactly when a
live record exists and its state is `StateRunning` (and then to that
record's address); with a live record in any other state it writes a 503
carrying the state and the accumulated log as plain text; with no record
it writes a 503 with a fixed plain-text deploy hint carrying neither
state nor log; and nothing is forwarded in either unavailable case. -/
theorem proxy_forward_iff_running (b? : Option server.Build) :
    (∀ b, b? = some b → b.State = flexdev.StateRunning →
      server.proxyHandler b? = .forward b.addr) ∧
    (∀ b, b? = some b → b.State ≠ flexdev.StateRunning →
      server.proxyHandler b? =
        .unavailable 503 ("state: " ++ b.State ++ "\n" ++ b.output)) ∧
    (b? = none →
      server.proxyHandler b? =
        .unavailable 503 "No app to run. Use `flexdev deploy` to deploy the application code.") ∧
    (∀ a, server.proxyHandler b? = .forward a →
      ∃ b, b? = some b ∧ b.State = flexdev.StateRunning ∧ a = b.addr) := by
  refine ⟨?_, ?_, ?_, ?_⟩
  · rintro b rfl hr
    simp [server.proxyHandler, hr]
  · rintro b rfl hr
    simp [server.proxyHandler, hr]
  · rintro rfl
    rfl
  · intro a h
    match b? with
    | none => cases h
    | some b =>
      by_cases hr : b.State = flexdev.StateRunning
      · simp [server.proxyHandler, hr] at h
        exact ⟨b, rfl, hr, h.symm⟩
      · simp [server.proxyHandler, hr] at h

/-- witness for `proxy_forward_iff_running`: a running record is
forwarded to, a created record is answered with its state and log. -/
theorem proxy_forward_iff_running_witness :
    server.proxyHandler (some bRunning) = .forward bRunning.addr ∧
    server.proxyHandler (some bCreated) =
      .unavailable 503 ("state: " ++ bCreated.State ++ "\n" ++ bCreated.output) :=
  ⟨(proxy_forward_iff_running (some bRunning)).1 bRunning rfl rfl,
   (proxy_forward_iff_running (some bCreated)).2.1 bCreated rfl (by decide)⟩

/-- one pool step never clears a recorded error. -/
theorem sendErr_isSome_step (s : client.PoolState) (e : client.Ev)
    (h : s.sendErr.isSome = true) : (client.step s e).sendErr.isSome = true := by
  cases e with
  | check w => simpa [client.step] using h
  | deliver w i f =>
    by_cases hs : client.skipOf s w
    · simpa [client.step, hs] using h
    · cases f with
      | some e2 => simp [client.step, hs]
      | none => simpa [client.step, hs] using h

/-- a recorded error survives any further interleaving. -/
theorem sendErr_isSome_runPool (tr : List client.Ev) (s : client.PoolState)
    (h : s.sendErr.isSome = true) : (client.runPool s tr).sendErr.isSome = true := by
  induction tr generalizing s with
  | nil => simpa [client.runPool] using h
  | cons e tr ih =>
    exact ih (client.step s e) (sendErr_isSome_step s e h)

/-- every received item is acknowledged with `wg.Done()`, skipped or not. -/
theorem doneCount_deliver (s : client.PoolState) (w : Nat) (i : String) (f : Option String) :
    (client.step s (.deliver w i f)).doneCount = s.doneCount + 1 := by
  by_cases hs : client.skipOf s w
  · simp [client.step, hs]
  · cases f <;> simp [client.step, hs]

/-- the pool drains: the number of acknowledgements equals the number of
delivered items, so the producer's outstanding-work counter reaches
zero. -/
theorem doneCount_runPool (tr : List client.Ev) (s : client.PoolState) :
    (client.runPool s tr).doneCount = s.doneCount + client.countDeliver tr := by
  induction tr generalizing s with
  | nil => simp [client.runPool, client.countDeliver]
  | cons e tr ih =>
    cases e with
    | check w =>
      have : client.step s (.check w) = { s with skip := s.skip.set w s.sendErr.isSome } := rfl
      show (client.runPool (client.step s (.check w)) tr).doneCount = _
      rw [ih]
      simp [client.step, client.countDeliver]
    | deliver w i f =>
      show (client.runPool (client.step s (.deliver w i f)) tr).doneCount = _
      rw [ih, doneCount_deliver]
      simp [client.countDeliver]
      omega

/-- C7 counterexample: in the interleaving `cexTrace` — a legal schedule
of the `doDeploy` worker loop, where all three workers pass their
pre-receive error check before any failure is recorded — the failures on
f1 and then f2 are both recorded before f3 is dequeued, yet f3 is still
transferred, and the error surfaced to the caller is the second failure
e2, not the first failure e1. -/
theorem pool_counterexample :
    (client.runPool (client.initPool 3) client.cexTrace).transferred = ["f3"] ∧
    (client.runPool (client.initPool 3) client.cexTrace).sendErr = some "e2" ∧
    (client.runPool (client.initPool 3) client.cexTrace).sendErr ≠ some "e1" := by decide

/-- C7 amended: a worker whose most recent pre-receive check saw a
recorded error skips the item it next receives (nothing is transferred,
the error is untouched, the item is still acknowledged); a recorded
error is never cleared, so the caller receives at most one error — the
last recorded failure, which a later failure may have overwritten; a
worker whose check saw no error processes the item it receives, and on
failure its error unconditionally overwrites `sendErr`; and every
delivered item is acknowledged, so the producer's `wg.Wait()` is
matched and the pool drains. -/
theorem pool_amended (s : client.PoolState) (tr : List client.Ev)
    (w : Nat) (item : String) (fail : Option String)
    (hskip : client.skipOf s w = true) :
    ((client.step s (.deliver w item fail)).transferred = s.transferred ∧
     (client.step s (.deliver w item fail)).sendErr = s.sendErr ∧
     (client.step s (.deliver w item fail)).doneCount = s.doneCount + 1) ∧
    (s.sendErr.isSome = true → (client.runPool s tr).sendErr.isSome = true) ∧
    ((client.runPool s tr).doneCount = s.doneCount + client.countDeliver tr) ∧
    (∀ w2 i2 e2, client.skipOf s w2 = false →
      (client.step s (.deliver w2 i2 (some e2))).sendErr = some e2) := by
  refine ⟨?_, fun h => sendErr_isSome_runPool tr s h, doneCount_runPool tr s, ?_⟩
  · simp [client.step, hskip]
  · intro w2 i2 e2 h2
    simp [client.step, h2]

/-- witness for `pool_amended`: a worker whose flag is set skips the
item it receives. -/
theorem pool_amended_witness :
    (client.step ⟨some "e0", [true], [], 0⟩ (client.Ev.deliver 0 "f" none)).transferred = [] ∧
    (client.step ⟨some "e0", [true], [], 0⟩ (client.Ev.deliver 0 "f" none)).sendErr = some "e0" ∧
    (client.step ⟨some "e0", [true], [], 0⟩ (client.Ev.deliver 0 "f" none)).doneCount = 0 + 1 :=
  (pool_amended ⟨some "e0", [true], [], 0⟩ [] 0 "f" none (by decide)).1

/-- C8 counterexample: with no live record, put-file with a nonempty
build id and start-build both dereference the nil `build` pointer and
panic instead of returning an error response. -/
theorem handlers_nil_counterexample :
    server.putFileHandler none ⟨"12345", "main.go", "abc1", none, "abc1", none, none⟩
        = .nilDeref ∧
    (server.startBuildHandler none none "" ⟨none, "", none, none⟩).1 = .nilDeref := by
  decide

/-- C8 amended: create and status answer every request with a response
from any state, including when no live record exists, and the same holds
for put-file and start-build whenever a live record exists; but put-file
(given a nonempty id) and start-build crash on the nil record, so only
the handlers that check for nil are non-fatal from every reachable
state. The coordinator itself stays usable: create always produces at
least one response whatever the previous state was. -/
theorem handlers_no_crash (prev : Option server.Build) (env : server.CreateEnv)
    (b : server.Build) (p : server.PutEnv) (ce : Option String) (co : String)
    (se : server.StartEnv) :
    (server.createBuildHandler prev env).responses ≠ [] ∧
    (∃ r, server.statusHandler prev = .response r) ∧
    (∃ r, server.putFileHandler (some b) p = .response r) ∧
    (∃ r, (server.startBuildHandler (some b) ce co se).1 = .response r) := by
  refine ⟨?_, ?_, ?_, ?_⟩
  · unfold server.createBuildHandler
    dsimp only
    repeat' split
    all_goals exact List.cons_ne_nil _ _
  · cases prev <;> exact ⟨_, rfl⟩
  · unfold server.putFileHandler
    dsimp only
    repeat' split
    all_goals exact ⟨_, rfl⟩
  · unfold server.startBuildHandler
    dsimp only
    repeat' split
    all_goals exact ⟨_, rfl⟩

/-- when every `RemoveAll` call succeeds, the remove loop deletes every
path in order and reports no error. -/
theorem removeAll_ok (rm : String → Option String) (h : ∀ p, rm p = none) :
    ∀ ps, server.removeAll rm ps = (ps, none) := by
  intro ps
  induction ps with
  | nil => rfl
  | cons p ps ih => simp [server.removeAll, h p, ih]

/-- C10: a yaml parse failure inside create writes a 400 error response
but does not abort the handler: a new live record is still allocated
with the partially parsed config, the diff against the on-disk tree is
run, the stale paths are deleted, and a second, success response is
appended after the error response. -/
theorem create_yaml_fallthrough (prev : Option server.Build) (env : server.CreateEnv)
    (req : flexdev.CreateBuildRequest) (ye : String) (disk : flexdev.DirList)
    (hprev : ∀ b, prev = some b → b.State ≠ flexdev.StateRunning)
    (hdec : env.decode = .ok req)
    (hcfg : req.Config ≠ "") (hfiles : req.Files ≠ [])
    (hyaml : env.yamlErr = some ye)
    (hmk : env.mkdirErr = none)
    (hdisk : env.listDisk = .ok disk)
    (hrm : ∀ p, env.rmFail p = none) :
    (server.createBuildHandler prev env).responses =
      [⟨400, some ("Could not parse yaml config: " ++ ye), "", []⟩,
       ⟨0, none, "Build created.",
         (flexdev.DirList.Diff disk req.Files).1.map flexdev.DirEntry.Path⟩] ∧
    (server.createBuildHandler prev env).build =
      some ⟨env.newID, flexdev.StateCreated, req.Files, server.packageDir, none, "", "",
        env.yamlCfg⟩ ∧
    (server.createBuildHandler prev env).removedPaths =
      (flexdev.DirList.Diff disk req.Files).2.map flexdev.DirEntry.Path := by
  have hrw := removeAll_ok env.rmFail hrm
  cases prev with
  | none =>
    refine ⟨?_, ?_, ?_⟩ <;>
      simp [server.createBuildHandler, hdec, hcfg, hfiles, hyaml, hmk, hdisk,
        server.Build.filesNeeded, hrw]
  | some b =>
    have hb : ¬ b.State = flexdev.StateRunning := hprev b rfl
    refine ⟨?_, ?_, ?_⟩ <;>
      simp [server.createBuildHandler, hdec, hcfg, hfiles, hyaml, hmk, hdisk,
        server.Build.filesNeeded, hrw, hb]

/-- witness for `create_yaml_fallthrough` at the concrete environment
`c10Env`: two responses, a live record, and the stale path deleted. -/
theorem create_yaml_fallthrough_witness :
    (server.createBuildHandler none c10Env).responses.length = 2 ∧
    (server.createBuildHandler none c10Env).build.isSome = true ∧
    (server.createBuildHandler none c10Env).removedPaths = ["old.txt"] := by
  have h := create_yaml_fallthrough none c10Env
    ⟨"runtime go\n", [⟨"app.yaml", false, "s1"⟩]⟩ "bad indent" [⟨"old.txt", false, "s2"⟩]
    (by intro b hb; cases hb) rfl (by decide) (by decide) rfl rfl rfl (fun p => rfl)
  refine ⟨by rw [h.1]; rfl, by rw [h.2.1]; rfl, ?_⟩
  rw [h.2.2]
  simp [flexdev.DirList.Diff, flexdev.sortDir, flexdev.diffLoop, flexdev.drain,
    flexdev.appendEntry, flexdev.strLt, flexdev.strLtAux, flexdev.DirEntry.InDir,
    flexdev.hasPrefixStr, List.mergeSort]

/-- witness for `diff_self_empty` at a one-entry snapshot. -/
theorem diff_self_empty_witness :
    flexdev.DirList.Diff [⟨"a", false, "s3"⟩] [⟨"a", false, "s3"⟩] = ([], []) :=
  diff_self_empty [⟨"a", false, "s3"⟩]

/-- witness for `appendEntry_skip_iff`: a true descendant of the last
directory entry is skipped, and the equivalence certifies it. -/
theorem appendEntry_skip_iff_witness :
    flexdev.appendEntry [⟨"a", true, ""⟩] ⟨"a/b", false, "h2"⟩ = [⟨"a", true, ""⟩] ↔
      ∃ init last, ([⟨"a", true, ""⟩] : flexdev.DirList) = init ++ [last] ∧
        flexdev.DirEntry.InDir ⟨"a/b", false, "h2"⟩ last = true :=
  appendEntry_skip_iff [⟨"a", true, ""⟩] ⟨"a/b", false, "h2"⟩

/-- witness for `handlers_no_crash` at concrete arguments. -/
theorem handlers_no_crash_witness :
    (server.createBuildHandler none c10Env).responses ≠ [] ∧
    (∃ r, server.statusHandler none = .response r) ∧
    (∃ r, server.putFileHandler (some bCreated)
      ⟨"1001", "main.go", "abc2", none, "abc2", none, none⟩ = .response r) ∧
    (∃ r, (server.startBuildHandler (some bCreated) none "" ⟨none, "", none, none⟩).1
      = .response r) :=
  handlers_no_crash none c10Env bCreated
    ⟨"1001", "main.go", "abc2", none, "abc2", none, none⟩ none "" ⟨none, "", none, none⟩
